import Mathlib

/-!
# Fleet-wise-aide: verification of the ingestion / RAG pipeline spec

Shallow embedding of the Supabase edge functions of the repository
(`parse-manual`, `search`, `maintenance-ai`), the `PdfViewer` display
transform, and the row-level-security policies of the migrations, with
theorems settling the frozen claims C1..C10.

External capabilities (the AI gateway, the Postgres full-text matcher,
figure detection) are modelled as explicit parameters, exactly at the
call boundary where the source invokes them; everything the source
computes itself is translated directly.
-/

namespace FleetWiseAide

/-! ## Section Segmenter (`parse-manual/index.ts`, `createDefaultSections`,
`extractSections` fallback paths) -/

/-- A section row as inserted by `parse-manual` (`section_name`,
`first_page`, `page_count`, `heading_level`). -/
structure SectionRec where
  section_name : String
  first_page : Nat
  page_count : Nat
  heading_level : Nat
  deriving Repr, DecidableEq

/-- The fixed chapter list of `createDefaultSections`. -/
def chapters : List String :=
  ["General Information", "Maintenance Schedule", "Engine",
   "Transmission", "Brakes", "Electrical System", "Diagnostics"]

/-- The fallback `createDefaultSections(totalPages)`: one section per chapter name,
`first_page = Math.floor((i * totalPages) / chapters.length) + 1`,
`page_count = Math.ceil(totalPages / chapters.length)`, heading level 1.
JS `Math.floor` on the integer quotient is `Nat` division; `Math.ceil`
of `totalPages / 7` is `(totalPages + 6) / 7`. -/
def createDefaultSections (totalPages : Nat) : List SectionRec :=
  chapters.enum.map fun p =>
    { section_name := p.2
      first_page := (p.1 * totalPages) / chapters.length + 1
      page_count := (totalPages + chapters.length - 1) / chapters.length
      heading_level := 1 }

/-- The section extraction `extractSections`: the structure-extraction capability is external;
it is modelled as `cap`, where `none` stands for every path on which the
source falls back (no API key, non-ok response, thrown error, missing
tool call) and `some l` for a successful call returning list `l`.  The
source additionally falls back when the returned list is empty. -/
def extractSectionsRun (cap : Option (List SectionRec)) (totalPages : Nat) :
    List SectionRec :=
  match cap with
  | none => createDefaultSections totalPages
  | some l => if l.length > 0 then l else createDefaultSections totalPages

/-! ## Display transform (`PdfViewer.tsx`, `renderPage`) -/

/-- A stored PDF-space bounding box (`manual_spans.bbox` as read by the
viewer: `x1,y1,x2,y2`), over exact rational arithmetic. -/
structure BBoxQ where
  x1 : ℚ
  y1 : ℚ
  x2 : ℚ
  y2 : ℚ
  deriving DecidableEq, Repr

/-- A display-space rectangle (`left`, `top`, `width`, `height` of the
highlight overlay). -/
structure DisplayBox where
  x : ℚ
  y : ℚ
  w : ℚ
  h : ℚ
  deriving DecidableEq, Repr

/-- The transform of `renderPage`:
`x = bbox.x1 * scale`, `y = (pdfHeight - bbox.y2) * scale`,
`width = (bbox.x2 - bbox.x1) * scale`, `height = (bbox.y2 - bbox.y1) * scale`. -/
def toDisplay (pdfHeight scale : ℚ) (b : BBoxQ) : DisplayBox :=
  { x := b.x1 * scale
    y := (pdfHeight - b.y2) * scale
    w := (b.x2 - b.x1) * scale
    h := (b.y2 - b.y1) * scale }

/-- The inverse transform (solving the `renderPage` equations for the
stored box, given the same page height and scale). -/
def fromDisplay (pdfHeight scale : ℚ) (d : DisplayBox) : BBoxQ :=
  { x1 := d.x / scale
    y1 := pdfHeight - d.y / scale - d.h / scale
    x2 := d.x / scale + d.w / scale
    y2 := pdfHeight - d.y / scale }

/-! ## Span Extractor and Chunk Builder (`parse-manual/index.ts`, serve handler) -/

/-- JS `String.prototype.trim`: strip leading and trailing whitespace.
Written over the character list so that concrete inputs evaluate. -/
def jsTrim (s : String) : String :=
  ⟨((s.data.dropWhile Char.isWhitespace).reverse.dropWhile Char.isWhitespace).reverse⟩

/-- One pdfjs text item as consumed by the extraction loop: `str`, the
placement transform entries `transform[4]`/`transform[5]` (absent when
`item.transform` is falsy), `width` and `height` (absent when falsy, per
`item.width || 0` and `item.height || 12.0`). -/
structure TextItem where
  str : String
  transform : Option (ℚ × ℚ)
  width : Option ℚ
  height : Option ℚ
  fontName : Option String
  deriving Repr, DecidableEq

/-- A raw PDF-space bounding box as stored on a span (`x0,y0,x1,y1`). -/
structure BBoxRaw where
  x0 : ℚ
  y0 : ℚ
  x1 : ℚ
  y1 : ℚ
  deriving Repr, DecidableEq

/-- A `manual_spans` row as built by the extraction loop (the
`manual_id` column is the same for the whole run and is omitted). -/
structure Span where
  page_number : Nat
  text : String
  bbox : BBoxRaw
  font_name : String
  font_size : ℚ
  deriving Repr, DecidableEq

/-- The body of `textContent.items.forEach`: keep an item iff its
trimmed text is non-empty, storing the trimmed text, the bbox derived
from the placement transform (origin plus extent, raw PDF space), the
font name (`item.fontName || "Default"`) and size (`item.height || 12.0`). -/
def spanOfItem (pageNum : Nat) (it : TextItem) : Option Span :=
  if (jsTrim it.str).length > 0 then
    some
      { page_number := pageNum
        text := jsTrim it.str
        bbox :=
          match it.transform with
          | some t =>
              { x0 := t.1, y0 := t.2
                x1 := t.1 + it.width.getD 0
                y1 := t.2 + it.height.getD 0 }
          | none => { x0 := 0, y0 := 0, x1 := 0, y1 := 0 }
        font_name := it.fontName.getD "Default"
        font_size := it.height.getD 12 }
  else none

/-- Spans produced from one page of text items. -/
def pageSpans (pageNum : Nat) (items : List TextItem) : List Span :=
  items.filterMap (spanOfItem pageNum)

/-- The page loop `for (pageNum = 1; pageNum <= totalPages; pageNum++)`,
accumulating the spans of every page; `k` is the number of the next page. -/
def extractSpansFrom (k : Nat) : List (List TextItem) → List Span
  | [] => []
  | items :: rest => pageSpans k items ++ extractSpansFrom (k + 1) rest

/-- All spans of a document (pages are 1-indexed by position). -/
def extractSpans (pages : List (List TextItem)) : List Span :=
  extractSpansFrom 1 pages

/-- JS `[...new Set(l)]`: deduplication keeping the first occurrence of
each element. -/
def jsDedup : List Nat → List Nat
  | [] => []
  | a :: l => a :: (jsDedup l).filter (fun x => x ≠ a)

/-- Ascending insertion, for the numeric key order of a JS `for…in`
loop over integer-like keys. -/
def insertAsc (n : Nat) : List Nat → List Nat
  | [] => [n]
  | a :: l => if n ≤ a then n :: a :: l else a :: insertAsc n l

/-- Ascending sort (JS `for…in` enumerates integer-like keys in
ascending numeric order). -/
def sortAsc : List Nat → List Nat
  | [] => []
  | a :: l => insertAsc a (sortAsc l)

/-- The distinct page numbers of a span list, in the order the
`for (const pageNum in spansByPage)` loop visits them. -/
def pageKeys (spans : List Span) : List Nat :=
  sortAsc (jsDedup (spans.map (·.page_number)))

/-- The window loop
`for (let i = 0; i < pageSpans.length; i += 15) push(slice(i, i + 15))`,
with fuel (one unit per remaining span, an upper bound on iterations). -/
def windowsGo : Nat → List Span → List (List Span)
  | 0, _ => []
  | _, [] => []
  | fuel + 1, a :: rest => ((a :: rest).take 15) :: windowsGo fuel ((a :: rest).drop 15)

/-- Split the spans of one page into windows of (at most) 15 spans. -/
def windows15 (l : List Span) : List (List Span) :=
  windowsGo l.length l

/-- Chunk metadata: `{page_numbers: [...new Set(pages)], char_count}`. -/
structure ChunkMetadata where
  page_numbers : List Nat
  char_count : Nat
  deriving Repr, DecidableEq

/-- A `manual_chunks` row as built before insertion (`span_ids` is
backfilled after the span insert and starts empty). -/
structure Chunk where
  content : String
  span_ids : List String
  metadata : ChunkMetadata
  deriving Repr, DecidableEq

/-- The chunk construction: group spans by page, window the spans of
each page 15 at a time, concatenate the texts of each window with a
single separating space (`join(" ")`), record the distinct page numbers
of the window and the character count of the content. -/
def buildChunks (spans : List Span) : List Chunk :=
  (pageKeys spans).flatMap fun p =>
    (windows15 (spans.filter (fun s => s.page_number == p))).map fun g =>
      let content := String.intercalate " " (g.map (·.text))
      { content := content
        span_ids := []
        metadata :=
          { page_numbers := jsDedup (g.map (·.page_number))
            char_count := content.length } }

/-! ## Ingestion run (`parse-manual/index.ts`, serve handler):
cleanup, parse, inserts, manual update, as an event trace -/

/-- The five derived-row tables of a manual. -/
inductive DerivedTable
  | sections
  | chunks
  | spans
  | figures
  | tables
  deriving Repr, DecidableEq

/-- One observable step of an ingestion run: a delete of the derived
rows of a manual, the in-memory extraction of the spans of one page, a bulk row
insert, or the final update of the `manuals` row (the only write to
`manuals` the function performs). -/
inductive IngestEvent
  | deleteDerived (t : DerivedTable)
  | extractPage (pageNum : Nat) (spanCount : Nat)
  | insertRows (t : DerivedTable) (count : Nat)
  | updateManual
  deriving Repr, DecidableEq

/-- The downloaded file: download failure, a wholly unreadable PDF
(`getDocument` throws), a readable PDF given as pages of text items, or
a non-PDF file given as its text. -/
inductive FileInput
  | downloadFailure
  | corruptPdf
  | pdf (pages : List (List TextItem))
  | nonPdf (text : String)

/-- The `stats` object of the success response. -/
structure IngestStats where
  totalPages : Nat
  spans : Nat
  chunks : Nat
  figures : Nat
  tables : Nat
  sections : Nat
  deriving Repr, DecidableEq

/-- The cleanup step: delete old sections, chunks, spans, figures and
tables, in the order of the source, before the file is even downloaded. -/
def cleanupEvents : List IngestEvent :=
  [.deleteDerived .sections, .deleteDerived .chunks, .deleteDerived .spans,
   .deleteDerived .figures, .deleteDerived .tables]

/-- The extraction loop as trace events (one per page, in order). -/
def extractEventsFrom (k : Nat) : List (List TextItem) → List IngestEvent
  | [] => []
  | items :: rest =>
      .extractPage k (pageSpans k items).length :: extractEventsFrom (k + 1) rest

/-- One run of the `parse-manual` serve handler, as the trace of its
store/extraction events plus its response.  `figureCount` stands for the
number of in-memory figure entries produced by the page scan (figure
detection calls the external vision capability and the pdfjs operator
list, both outside the program text); `cap` is the structure-extraction
capability of `extractSections`.  On any thrown error the catch branch
answers with `{error}` and performs no further store operation. -/
def parseManualRun (figureCount : Nat) (cap : Option (List SectionRec)) :
    FileInput → List IngestEvent × Except String IngestStats
  | .downloadFailure => (cleanupEvents, .error "Failed to download file")
  | .corruptPdf => (cleanupEvents, .error "Invalid PDF structure")
  | .pdf pages =>
      let spans := extractSpans pages
      let chunks := buildChunks spans
      let sections := extractSectionsRun cap pages.length
      (cleanupEvents ++ extractEventsFrom 1 pages ++
        [.insertRows .spans spans.length, .insertRows .chunks chunks.length] ++
        (if figureCount > 0 then [.insertRows .figures figureCount] else []) ++
        (if sections.length > 0 then [.insertRows .sections sections.length] else []) ++
        [.updateManual],
       .ok ⟨pages.length, spans.length, chunks.length, figureCount, 0, sections.length⟩)
  | .nonPdf _text =>
      let sections := extractSectionsRun cap 1
      (cleanupEvents ++
        [.insertRows .spans 1, .insertRows .chunks 1] ++
        (if sections.length > 0 then [.insertRows .sections sections.length] else []) ++
        [.updateManual],
       .ok ⟨1, 1, 1, 0, 0, sections.length⟩)

/-- Derived-row counts of one manual in the store. -/
structure DerivedCounts where
  sections : Nat
  chunks : Nat
  spans : Nat
  figures : Nat
  tables : Nat
  deriving Repr, DecidableEq

/-- All-zero derived counts. -/
def DerivedCounts.zero : DerivedCounts := ⟨0, 0, 0, 0, 0⟩

/-- Apply one event to the derived counts of the store. -/
def applyEvent (db : DerivedCounts) : IngestEvent → DerivedCounts
  | .deleteDerived .sections => { db with sections := 0 }
  | .deleteDerived .chunks => { db with chunks := 0 }
  | .deleteDerived .spans => { db with spans := 0 }
  | .deleteDerived .figures => { db with figures := 0 }
  | .deleteDerived .tables => { db with tables := 0 }
  | .insertRows .sections n => { db with sections := db.sections + n }
  | .insertRows .chunks n => { db with chunks := db.chunks + n }
  | .insertRows .spans n => { db with spans := db.spans + n }
  | .insertRows .figures n => { db with figures := db.figures + n }
  | .insertRows .tables n => { db with tables := db.tables + n }
  | _ => db

/-- Run a trace against the derived counts of the store. -/
def runCounts (db : DerivedCounts) (evs : List IngestEvent) : DerivedCounts :=
  evs.foldl applyEvent db

/-- Is an event a row insert? -/
def IngestEvent.isInsert : IngestEvent → Bool
  | .insertRows _ _ => true
  | _ => false

/-- Is an event a span insert (a flush of extracted spans)? -/
def IngestEvent.isSpanInsert : IngestEvent → Bool
  | .insertRows .spans _ => true
  | _ => false

/-- Is an event a page extraction? -/
def IngestEvent.isExtract : IngestEvent → Bool
  | .extractPage _ _ => true
  | _ => false

/-- How many pages are extracted (held in memory) before the first
flush of spans to the store. -/
def pagesBeforeFirstSpanFlush (evs : List IngestEvent) : Nat :=
  ((evs.takeWhile fun e => !e.isSpanInsert).filter (·.isExtract)).length

/-! ## Retriever (`search/index.ts`) -/

/-- The vehicle context extracted from the query (fields are absent
when not mentioned; the empty object when extraction is skipped or
fails). -/
structure VehicleInfo where
  year : Option String
  make : Option String
  model : Option String
  deriving Repr, DecidableEq

/-- The empty object `{}`: no vehicle context. -/
def VehicleInfo.empty : VehicleInfo := ⟨none, none, none⟩

/-- The check `Object.keys(vehicleInfo).length > 0`. -/
def VehicleInfo.nonEmpty (v : VehicleInfo) : Bool :=
  v.year.isSome || v.make.isSome || v.model.isSome

/-- The extraction `extractVehicleInfo`: the call to the structured-extraction
capability is external; `cap = none` stands for every path on which the
source returns `{}` (no API key, non-ok response, thrown error, missing
tool call), `cap = some v` for a successful extraction. -/
def extractVehicleInfo (cap : Option VehicleInfo) : VehicleInfo :=
  cap.getD VehicleInfo.empty

/-- A `manuals` row (the columns the search function touches). -/
structure ManualRow where
  id : String
  user_id : String
  title : String
  vehicle_year : Option String
  vehicle_make : Option String
  vehicle_model : Option String
  deriving Repr, DecidableEq

/-- Does `hay` start with `needle`? -/
def listStartsWith : List Char → List Char → Bool
  | _, [] => true
  | [], _ :: _ => false
  | a :: ha, b :: nb => a == b && listStartsWith ha nb

/-- Does `hay` contain `needle` as a contiguous run? -/
def listContainsSeq (hay needle : List Char) : Bool :=
  listStartsWith hay needle ||
    match hay with
    | [] => false
    | _ :: t => listContainsSeq t needle

/-- Case-insensitive substring containment: the SQL pattern match
`ilike` against `%needle%`, and JS `String.prototype.includes` after
`toLowerCase`. -/
def strContainsCI (hay needle : String) : Bool :=
  listContainsSeq hay.toLower.data needle.toLower.data

/-- The vehicle filters stacked onto a store query: `.eq` on the year
when extracted, `.ilike %make%` and `.ilike %model%` when extracted (a
null column never matches). -/
def vehicleFilter (vi : VehicleInfo) (m : ManualRow) : Bool :=
  (match vi.year with
   | some y => m.vehicle_year == some y
   | none => true) &&
  (match vi.make with
   | some mk => match m.vehicle_make with
     | some v => strContainsCI v mk
     | none => false
   | none => true) &&
  (match vi.model with
   | some md => match m.vehicle_model with
     | some v => strContainsCI v md
     | none => false
   | none => true)

/-- A `manual_sections` row joined with its manual
(`manuals!inner(...)`). -/
structure SectionJoin where
  id : String
  section_name : String
  first_page : Nat
  page_count : Nat
  heading_level : Nat
  manual : ManualRow
  deriving Repr, DecidableEq

/-- The significant terms of the query:
`query.toLowerCase().split(/\s+/).filter(t => t.length > 3)`. -/
def significantTerms (query : String) : List String :=
  (query.toLower.split Char.isWhitespace).filter (fun t => t.length > 3)

/-- The keyword filter of `searchSections`: a section survives iff its
lowercased name contains at least one significant query term. -/
def sectionKeywordMatch (query : String) (sec : SectionJoin) : Bool :=
  (significantTerms query).any fun term => strContainsCI sec.section_name term

/-- The `searchSections` helper: fetch candidate sections of the manuals of the user
under the vehicle filters with `limit(5)` (the store returns matching
rows in its native iteration order), filter by keyword overlap, and
keep `slice(0, 3)`. -/
def searchSections (store : List SectionJoin) (userId : String)
    (vi : VehicleInfo) (query : String) : List SectionJoin :=
  let candidates :=
    (store.filter fun r => r.manual.user_id == userId && vehicleFilter vi r.manual).take 5
  (candidates.filter (sectionKeywordMatch query)).take 3

/-- A `manual_chunks` row joined with its manual. -/
structure ChunkJoin where
  id : String
  content : String
  manual : ManualRow
  deriving Repr, DecidableEq

/-- The chunk fallback: lexical full-text search over the chunks of the
user (`textSearch` is the websearch matcher of the store, external — modelled as
the predicate `fts query content`), optionally scoped to the explicit
manual, under the same vehicle filters, `limit(topK)`. -/
def searchChunks (fts : String → String → Bool) (store : List ChunkJoin)
    (userId : String) (reqManualId : Option String) (vi : VehicleInfo)
    (query : String) (topK : Nat) : List ChunkJoin :=
  (store.filter fun c =>
    c.manual.user_id == userId &&
    fts query c.content &&
    (match reqManualId with
     | some mid => c.manual.id == mid
     | none => true) &&
    vehicleFilter vi c.manual).take topK

/-- The observable outcome of one run of the `search` serve handler:
whether vehicle extraction was invoked, the vehicle info it produced,
whether each retrieval tier ran, and the results of each tier. -/
structure SearchRun where
  extractionRan : Bool
  vehicleInfo : VehicleInfo
  sectionTierRan : Bool
  sectionResults : List SectionJoin
  chunkTierRan : Bool
  chunkResults : List ChunkJoin
  deriving Repr, DecidableEq

/-- One run of the `search` serve handler after authentication:
vehicle extraction only under `extractVehicle && !manualId`; the
section tier only when vehicle context is non-empty or a manual was
explicitly specified (one enriched result per found section); the chunk
full-text fallback only when the section tier produced zero results. -/
def searchRun (sectionStore : List SectionJoin) (chunkStore : List ChunkJoin)
    (fts : String → String → Bool) (cap : Option VehicleInfo)
    (userId : String) (query : String) (reqManualId : Option String)
    (topK : Nat) (extractVehicle : Bool) : SearchRun :=
  let extractionRan := extractVehicle && reqManualId.isNone
  let vi := if extractionRan then extractVehicleInfo cap else VehicleInfo.empty
  let sectionTierRan := vi.nonEmpty || reqManualId.isSome
  let sections :=
    if sectionTierRan then searchSections sectionStore userId vi query else []
  let chunkTierRan := sections.isEmpty
  let chunksFound :=
    if chunkTierRan then searchChunks fts chunkStore userId reqManualId vi query topK
    else []
  { extractionRan := extractionRan
    vehicleInfo := vi
    sectionTierRan := sectionTierRan
    sectionResults := sections
    chunkTierRan := chunkTierRan
    chunkResults := chunksFound }

/-! ## Citation Assembler and Answer Streamer (`maintenance-ai/index.ts`,
serve handler and ReadableStream start) -/

/-- A figure attached to a search hit (`signed_url` is present only
when the search function could create a signed URL for its asset). -/
structure FigureRef where
  caption : Option String
  page_number : Nat
  signed_url : Option String
  deriving Repr, DecidableEq

/-- A retrieval hit as returned by the search function (the fields the
citation assembly reads). -/
structure Hit where
  isSection : Bool
  manualId : String
  manualTitle : String
  content : String
  pageNumbers : List Nat
  figures : List FigureRef
  deriving Repr, DecidableEq

/-- The hit label: `c${index + 1}` for the hit at 0-based `index`. -/
def hitLabel (index : Nat) : String :=
  "c" ++ toString (index + 1)

/-- The figure label: `fig${index + 1}_${figIdx + 1}` for figure
`figIdx` (0-based) of hit `index` (0-based). -/
def figLabel (index figIdx : Nat) : String :=
  "fig" ++ toString (index + 1) ++ "_" ++ toString (figIdx + 1)

/-- A citation map entry (`id` is the label; figure entries also carry
`isFigure` and the signed URL). -/
structure CitationRec where
  id : String
  manualId : String
  manualTitle : String
  pageNumbers : List Nat
  isFigure : Bool
  figureUrl : Option String
  deriving Repr, DecidableEq

/-- The `citation.figures.forEach((f, figIdx) => …)` loop starting at
figure index `j`: an entry labelled `fig${index+1}_${figIdx+1}` is
pushed only when the figure has a signed URL (`if (f.signed_url)`). -/
def figCitationsFrom (index : Nat) (h : Hit) (j : Nat) :
    List FigureRef → List CitationRec
  | [] => []
  | f :: rest =>
      (match f.signed_url with
       | some url =>
           [{ id := figLabel index j
              manualId := h.manualId
              manualTitle := h.manualTitle
              pageNumbers := [f.page_number]
              isFigure := true
              figureUrl := some url }]
       | none => []) ++ figCitationsFrom index h (j + 1) rest

/-- The citation pushes for the hit at `index`: one entry labelled
`c${index+1}`, then the conditional figure entries in figure order. -/
def hitCitations (index : Nat) (h : Hit) : List CitationRec :=
  { id := hitLabel index
    manualId := h.manualId
    manualTitle := h.manualTitle
    pageNumbers := h.pageNumbers
    isFigure := false
    figureUrl := none } :: figCitationsFrom index h 0 h.figures

/-- The `searchResults.results.forEach((result, index) => …)` loop
starting at hit index `index`. -/
def buildCitationsFrom (index : Nat) : List Hit → List CitationRec
  | [] => []
  | h :: rest => hitCitations index h ++ buildCitationsFrom (index + 1) rest

/-- The full citation list of a response, in push order. -/
def buildCitations (results : List Hit) : List CitationRec :=
  buildCitationsFrom 0 results

/-- The figure labels rendered into the prompt for the figures of one hit
(`{{fig${index+1}_${figIdx+1}}}` for every figure, unconditionally,
signed URL or not), starting at figure index `j`. -/
def figLabelsFrom (index j : Nat) : List FigureRef → List String
  | [] => []
  | _ :: rest => figLabel index j :: figLabelsFrom index (j + 1) rest

/-- The citation labels rendered into the model-visible prompt context
(`ragContext`) from hit index `index` on: `[c${index+1}]` for every
hit, then a `{{fig…}}` marker for each of its figures. -/
def promptLabelsFrom (index : Nat) : List Hit → List String
  | [] => []
  | h :: rest =>
      (hitLabel index :: figLabelsFrom index 0 h.figures) ++
        promptLabelsFrom (index + 1) rest

/-- All citation labels rendered into the prompt context, in order. -/
def promptLabels (results : List Hit) : List String :=
  promptLabelsFrom 0 results

/-- One frame of the event stream of the response: a content delta, the
citation-metadata payload (`delta.content = ""` plus the citation map),
or the `[DONE]` sentinel. -/
inductive Frame
  | delta (content : String)
  | citationsPayload (ids : List String)
  | sentinel
  deriving Repr, DecidableEq

/-- The reference block appended as a content delta after the upstream
stream ends (`**Reference:**` plus one line per citation; the page is
`pageNumbers[0] || "N/A"`, so a falsy first page renders as `N/A`). -/
def referenceText (citations : List CitationRec) : String :=
  citations.foldl
    (fun acc c =>
      acc ++ "- [" ++ c.id ++ "] " ++ c.manualTitle ++ " - Page " ++
        (match c.pageNumbers.head? with
         | some p => if p = 0 then "N/A" else toString p
         | none => "N/A") ++ "\n")
    "\n\n**Reference:**\n"

/-- The `ReadableStream start` body: forward every upstream chunk
as-is; when the stream ends, if at least one citation exists, append
the reference text as a content delta and then the citation-metadata
event; finally send `data: [DONE]`. -/
def buildOutputStream (upstream : List Frame) (citations : List CitationRec) :
    List Frame :=
  upstream ++
    (if citations.length > 0 then
      [Frame.delta (referenceText citations),
       Frame.citationsPayload (citations.map (·.id))]
     else []) ++
    [Frame.sentinel]

/-- The ordering invariant claimed for the stream: some citation
payload frame is followed by exactly the sentinel (it is the last event
before the completion marker). -/
def citationsImmediatelyBeforeSentinel (out : List Frame) : Prop :=
  ∃ pre ids, out = pre ++ [Frame.citationsPayload ids, Frame.sentinel]

/-! ## Store read policies (migrations: row-level security) -/

/-- The authorization context of a store request: `auth.uid()`, absent
for unauthenticated requests. -/
structure AuthCtx where
  uid : Option String
  deriving Repr, DecidableEq

/-- The owner lookup `EXISTS (SELECT 1 FROM manuals WHERE id = manual_id
AND user_id = auth.uid())`, given the manuals table as an ownership map. -/
def ownsManual (owner : String → Option String) (ctx : AuthCtx)
    (manual_id : String) : Bool :=
  match ctx.uid with
  | some u => owner manual_id == some u
  | none => false

/-- SELECT policy on `manual_sections` (migration 20251130074832):
`"Authenticated users can view all sections" … USING (true)`. -/
def sectionsSelectAllowed (_owner : String → Option String) (_ctx : AuthCtx)
    (_manual_id : String) : Bool :=
  true

/-- Final SELECT policy on `manual_spans`, `manual_chunks`,
`manual_figures`, `manual_tables` (the policy-replacement migration:
`"Authenticated users can view all …" FOR SELECT TO authenticated
USING (true)`): any authenticated user may read every row. -/
def derivedSelectAllowed (_owner : String → Option String) (ctx : AuthCtx)
    (_manual_id : String) : Bool :=
  ctx.uid.isSome

/-- INSERT policy on the derived tables (`WITH CHECK` of the ownership
lookup). -/
def derivedInsertAllowed (owner : String → Option String) (ctx : AuthCtx)
    (manual_id : String) : Bool :=
  ownsManual owner ctx manual_id

/-- DELETE policy on the derived tables (`USING` of the ownership
lookup). -/
def derivedDeleteAllowed (owner : String → Option String) (ctx : AuthCtx)
    (manual_id : String) : Bool :=
  ownsManual owner ctx manual_id

end FleetWiseAide

namespace FleetWiseAide

/-- C6 helper: membership in `createDefaultSections` unfolded. -/
theorem mem_createDefaultSections (T : Nat) (s : SectionRec)
    (hs : s ∈ createDefaultSections T) :
    ∃ i : Nat, i < 7 ∧
      s.first_page = (i * T) / 7 + 1 ∧ s.page_count = (T + 6) / 7 := by
  simp only [createDefaultSections, chapters, List.enum, List.enumFrom,
    List.map_cons, List.map_nil, List.mem_cons, List.not_mem_nil, or_false] at hs
  rcases hs with h | h | h | h | h | h | h <;> subst h
  · exact ⟨0, by omega, rfl, rfl⟩
  · exact ⟨1, by omega, rfl, rfl⟩
  · exact ⟨2, by omega, rfl, rfl⟩
  · exact ⟨3, by omega, rfl, rfl⟩
  · exact ⟨4, by omega, rfl, rfl⟩
  · exact ⟨5, by omega, rfl, rfl⟩
  · exact ⟨6, by omega, rfl, rfl⟩

/-- C6 (confirmed): for every `totalPages ≥ 1`, the deterministic
fallback `createDefaultSections` — which is exactly what `extractSections`
returns when the structure-extraction capability is unavailable, errors,
or returns zero entries — is a non-empty list of exactly 7 generically
named sections, and every returned section satisfies the section
invariants `first_page ≥ 1` and `first_page + page_count − 1 ≤ totalPages`. -/
theorem c6_default_sections_valid (T : Nat) (hT : 1 ≤ T) :
    (createDefaultSections T).length = 7 ∧
    extractSectionsRun none T = createDefaultSections T ∧
    extractSectionsRun (some []) T = createDefaultSections T ∧
    ∀ s ∈ createDefaultSections T,
      1 ≤ s.first_page ∧ s.first_page + s.page_count - 1 ≤ T := by
  refine ⟨rfl, rfl, rfl, ?_⟩
  intro s hs
  obtain ⟨i, hi, hfp, hpc⟩ := mem_createDefaultSections T s hs
  rw [hfp, hpc]
  constructor
  · omega
  · interval_cases i <;> omega

/-- Witness for C6 at `totalPages = 12` (the page count of Scenario A). -/
theorem c6_default_sections_valid_witness :
    (createDefaultSections 12).length = 7 ∧
    extractSectionsRun none 12 = createDefaultSections 12 ∧
    extractSectionsRun (some []) 12 = createDefaultSections 12 ∧
    ∀ s ∈ createDefaultSections 12,
      1 ≤ s.first_page ∧ s.first_page + s.page_count - 1 ≤ 12 :=
  c6_default_sections_valid 12 (by decide)

/-- C9 (confirmed): the display-space transform applied by
`renderPage` to a stored PDF-space bounding box is exactly invertible
over rational arithmetic: applying the inverse transform with the same
page height and (non-zero) scale recovers the original stored box. -/
theorem c9_bbox_round_trip (pdfHeight scale : ℚ) (hscale : scale ≠ 0)
    (b : BBoxQ) : fromDisplay pdfHeight scale (toDisplay pdfHeight scale b) = b := by
  simp only [toDisplay, fromDisplay]
  obtain ⟨x1, y1, x2, y2⟩ := b
  simp only [BBoxQ.mk.injEq]
  refine ⟨?_, ?_, ?_, ?_⟩ <;> field_simp

/-- Witness for C9 at page height 792, scale 3/2, and the box
(72, 100, 340, 180). -/
theorem c9_bbox_round_trip_witness :
    fromDisplay 792 (3/2) (toDisplay 792 (3/2) ⟨72, 100, 340, 180⟩) =
      ⟨72, 100, 340, 180⟩ :=
  c9_bbox_round_trip 792 (3/2) (by norm_num) ⟨72, 100, 340, 180⟩

/-- Taking while a predicate holds passes over a block on which it holds. -/
theorem takeWhile_append_all {α : Type} {p : α → Bool} {l₁ l₂ : List α}
    (h : ∀ e ∈ l₁, p e = true) :
    (l₁ ++ l₂).takeWhile p = l₁ ++ l₂.takeWhile p := by
  induction l₁ with
  | nil => rfl
  | cons a l ih =>
      have ha := h a (List.mem_cons_self a l)
      simp only [List.cons_append, List.takeWhile_cons, ha, if_true]
      rw [ih fun e he => h e (List.mem_cons_of_mem a he)]

/-- The extraction loop emits one event per page. -/
theorem extractEventsFrom_length (k : Nat) (pages : List (List TextItem)) :
    (extractEventsFrom k pages).length = pages.length := by
  induction pages generalizing k with
  | nil => rfl
  | cons items rest ih => simp [extractEventsFrom, ih]

/-- Every event of the extraction loop is a page extraction (and in
particular not a span flush). -/
theorem extractEventsFrom_shape (k : Nat) (pages : List (List TextItem)) :
    ∀ e ∈ extractEventsFrom k pages,
      e.isExtract = true ∧ e.isSpanInsert = false := by
  induction pages generalizing k with
  | nil => intro e he; cases he
  | cons items rest ih =>
      intro e he
      rcases List.mem_cons.mp he with h | h
      · subst h; exact ⟨rfl, rfl⟩
      · exact ih (k + 1) e h

/-- C2 counterexample: re-processing with a wholly unreadable file.
The run does abort with a reported error, but — contrary to the claim
that the processing status of the manual becomes "failed" — the trace
contains no write at all that could record a status: no row insert and
no write to the `manuals` row (the catch branch only returns the error
response; the schema has no processing-status column and the only
`manuals` write lives on the success path). -/
theorem c2_counterexample :
    (parseManualRun 0 none .corruptPdf).2 = .error "Invalid PDF structure" ∧
    ¬ ∃ e ∈ (parseManualRun 0 none .corruptPdf).1,
        e = IngestEvent.updateManual ∨ e.isInsert = true := by
  constructor
  · rfl
  · show ¬ ∃ e ∈ cleanupEvents, e = IngestEvent.updateManual ∨ e.isInsert = true
    decide

/-- C2 (corrected): if re-processing encounters a wholly unreadable
file, ingestion aborts with a reported error and inserts no new spans,
chunks, figures, tables or sections; since the old derived rows were
deleted before re-ingestion began, the manual ends with zero derived
rows, never a mix of old and new data.  However, no "failed" status is
recorded: the failure path performs no write to the `manuals` row at
all (the manual is left silently without derived data). -/
theorem c2_corrupt_aborts_clean (figureCount : Nat)
    (cap : Option (List SectionRec)) (old : DerivedCounts) :
    (parseManualRun figureCount cap .corruptPdf).2 =
      .error "Invalid PDF structure" ∧
    runCounts old (parseManualRun figureCount cap .corruptPdf).1 =
      DerivedCounts.zero ∧
    ∀ e ∈ (parseManualRun figureCount cap .corruptPdf).1,
      e.isInsert = false ∧ e ≠ IngestEvent.updateManual := by
  refine ⟨rfl, ?_, ?_⟩
  · obtain ⟨s, c, sp, f, t⟩ := old
    rfl
  · show ∀ e ∈ cleanupEvents, e.isInsert = false ∧ e ≠ IngestEvent.updateManual
    decide

/-- Witness for C2: a concrete corrupt re-process of a manual that
previously had 3 figures and 40 spans. -/
theorem c2_corrupt_aborts_clean_witness :
    (parseManualRun 0 none .corruptPdf).2 = .error "Invalid PDF structure" ∧
    runCounts ⟨7, 5, 40, 3, 0⟩ (parseManualRun 0 none .corruptPdf).1 =
      DerivedCounts.zero ∧
    ∀ e ∈ (parseManualRun 0 none .corruptPdf).1,
      e.isInsert = false ∧ e ≠ IngestEvent.updateManual :=
  c2_corrupt_aborts_clean 0 none ⟨7, 5, 40, 3, 0⟩

/-- C4 counterexample: the ingestion of an 11-page document (one
span per page) holds the spans of all 11 pages in memory before the first
store write — the claimed bound of one batch (10 pages) of un-flushed
spans is violated, since the code accumulates the spans of every page and
performs a single bulk insert after the page loop. -/
theorem c4_counterexample :
    ¬ ∀ (pages : List (List TextItem)) (figureCount : Nat)
        (cap : Option (List SectionRec)),
        pagesBeforeFirstSpanFlush
          ((parseManualRun figureCount cap (.pdf pages)).1) ≤ 10 := by
  intro h
  have h11 := h (List.replicate 11 [⟨"bolt", none, none, none, none⟩]) 0 none
  revert h11
  decide

/-- C4 (corrected): the ingestion is page-sequential but not
batched: every page of the document is extracted (its spans held in
memory) before the first span flush, and the trace contains exactly one
span insert, carrying the full span list of the document. -/
theorem c4_all_pages_before_single_flush (figureCount : Nat)
    (cap : Option (List SectionRec)) (pages : List (List TextItem)) :
    pagesBeforeFirstSpanFlush ((parseManualRun figureCount cap (.pdf pages)).1) =
      pages.length ∧
    ((parseManualRun figureCount cap (.pdf pages)).1.filter (·.isSpanInsert)) =
      [.insertRows .spans (extractSpans pages).length] := by
  have hcleanAll : ∀ e ∈ cleanupEvents, (!e.isSpanInsert) = true := by decide
  have hextAll : ∀ e ∈ extractEventsFrom 1 pages, (!e.isSpanInsert) = true :=
    fun e he => by simp [(extractEventsFrom_shape 1 pages e he).2]
  have hclean1 : cleanupEvents.filter (·.isExtract) = [] := by decide
  have hclean2 : cleanupEvents.filter (·.isSpanInsert) = [] := by decide
  have hext1 : (extractEventsFrom 1 pages).filter (·.isExtract) =
      extractEventsFrom 1 pages :=
    List.filter_eq_self.mpr fun e he => (extractEventsFrom_shape 1 pages e he).1
  have hext2 : (extractEventsFrom 1 pages).filter (·.isSpanInsert) = [] :=
    List.filter_eq_nil_iff.mpr fun e he => by
      simp [(extractEventsFrom_shape 1 pages e he).2]
  have hshape : (parseManualRun figureCount cap (.pdf pages)).1 =
      cleanupEvents ++ (extractEventsFrom 1 pages ++
        (IngestEvent.insertRows .spans (extractSpans pages).length ::
         IngestEvent.insertRows .chunks (buildChunks (extractSpans pages)).length ::
         ((if figureCount > 0 then
            [IngestEvent.insertRows .figures figureCount] else []) ++
          ((if (extractSectionsRun cap pages.length).length > 0 then
             [IngestEvent.insertRows .sections
               (extractSectionsRun cap pages.length).length] else []) ++
           [IngestEvent.updateManual])))) := by
    simp [parseManualRun, List.append_assoc]
  have hfig : (List.filter (·.isSpanInsert) (if figureCount > 0 then
      [IngestEvent.insertRows .figures figureCount] else [])) = [] := by
    split <;> rfl
  have hsec : (List.filter (·.isSpanInsert)
      (if (extractSectionsRun cap pages.length).length > 0 then
        [IngestEvent.insertRows .sections
          (extractSectionsRun cap pages.length).length]
       else [])) = [] := by
    split <;> rfl
  constructor
  · unfold pagesBeforeFirstSpanFlush
    rw [hshape, takeWhile_append_all hcleanAll, takeWhile_append_all hextAll]
    simp only [List.takeWhile_cons, IngestEvent.isSpanInsert, Bool.not_true,
      Bool.false_eq_true, if_false, List.append_nil, List.filter_append,
      hclean1, hext1, List.nil_append]
    exact extractEventsFrom_length 1 pages
  · rw [hshape]
    have h1 : ∀ n, (IngestEvent.insertRows DerivedTable.spans n).isSpanInsert = true :=
      fun _ => rfl
    have h2 : ∀ n, (IngestEvent.insertRows DerivedTable.chunks n).isSpanInsert = false :=
      fun _ => rfl
    have h3 : IngestEvent.updateManual.isSpanInsert = false := rfl
    simp [List.filter_append, List.filter_cons, hclean2, hext2, hfig, hsec,
      h1, h2, h3]

/-- Insertion keeps only the inserted element and the old ones. -/
theorem mem_insertAsc {a n : Nat} {l : List Nat} (h : a ∈ insertAsc n l) :
    a = n ∨ a ∈ l := by
  induction l with
  | nil =>
      simp only [insertAsc, List.mem_singleton] at h
      exact Or.inl h
  | cons b t ih =>
      simp only [insertAsc] at h
      split at h
      · rcases List.mem_cons.mp h with h | h
        · exact Or.inl h
        · exact Or.inr h
      · rcases List.mem_cons.mp h with h | h
        · exact Or.inr (List.mem_cons.mpr (Or.inl h))
        · rcases ih h with h | h
          · exact Or.inl h
          · exact Or.inr (List.mem_cons.mpr (Or.inr h))

/-- Sorting introduces no new elements. -/
theorem mem_sortAsc {a : Nat} {l : List Nat} (h : a ∈ sortAsc l) : a ∈ l := by
  induction l with
  | nil => cases h
  | cons b t ih =>
      rcases mem_insertAsc h with h | h
      · simp [h]
      · exact List.mem_cons.mpr (Or.inr (ih h))

/-- Deduplication introduces no new elements. -/
theorem mem_jsDedup {a : Nat} {l : List Nat} (h : a ∈ jsDedup l) : a ∈ l := by
  induction l with
  | nil => cases h
  | cons b t ih =>
      simp only [jsDedup] at h
      rcases List.mem_cons.mp h with h | h
      · simp [h]
      · exact List.mem_cons.mpr (Or.inr (ih (List.mem_filter.mp h).1))

/-- Deduplicating a non-empty constant list yields the singleton. -/
theorem jsDedup_const {p : Nat} {l : List Nat} (hne : l ≠ [])
    (hall : ∀ x ∈ l, x = p) : jsDedup l = [p] := by
  induction l with
  | nil => exact absurd rfl hne
  | cons b t ih =>
      have hb : b = p := hall b (List.mem_cons_self b t)
      subst hb
      simp only [jsDedup]
      by_cases ht : t = []
      · subst ht; rfl
      · rw [ih ht fun x hx => hall x (List.mem_cons_of_mem b hx)]
        simp

/-- Every window of the window loop is non-empty, has at most 15
spans, and draws its spans from the input. -/
theorem windowsGo_mem {f : Nat} {l g : List Span} (hg : g ∈ windowsGo f l) :
    g ≠ [] ∧ g.length ≤ 15 ∧ ∀ s ∈ g, s ∈ l := by
  induction f generalizing l with
  | zero => simp [windowsGo] at hg
  | succ f ih =>
      match l with
      | [] => simp [windowsGo] at hg
      | a :: rest =>
          simp only [windowsGo] at hg
          rcases List.mem_cons.mp hg with h | h
          · subst h
            refine ⟨?_, ?_, fun s hs => List.take_subset _ _ hs⟩
            · simp [List.take_succ_cons]
            · rw [List.length_take]
              exact min_le_left _ _
          · obtain ⟨h1, h2, h3⟩ := ih h
            exact ⟨h1, h2, fun s hs => List.drop_subset _ _ (h3 s hs)⟩

/-- A span produced for page `k` carries page number `k`. -/
theorem pageSpans_page {k : Nat} {items : List TextItem} {s : Span}
    (h : s ∈ pageSpans k items) : s.page_number = k := by
  simp only [pageSpans, List.mem_filterMap] at h
  obtain ⟨it, _, hit⟩ := h
  simp only [spanOfItem] at hit
  split at hit
  · injection hit with h2
    rw [← h2]
  · cases hit

/-- Every span of the extraction loop started at page `k` lies in
`[k, k + pages.length)`. -/
theorem extractSpansFrom_bounds {k : Nat} {pages : List (List TextItem)}
    {s : Span} (h : s ∈ extractSpansFrom k pages) :
    k ≤ s.page_number ∧ s.page_number < k + pages.length := by
  induction pages generalizing k with
  | nil => cases h
  | cons items rest ih =>
      simp only [extractSpansFrom] at h
      rcases List.mem_append.mp h with h | h
      · have hp := pageSpans_page h
        simp only [List.length_cons]
        omega
      · have hb := ih (k := k + 1) h
        simp only [List.length_cons]
        omega

/-- C7 (confirmed): during PDF ingestion every produced chunk comes
from a non-empty window of at most 15 spans all on a single page `p`
(spans grouped by page, windowed 15 at a time); its content is those
texts of those spans joined with a single separating space; its `span_ids`
start empty; its metadata records exactly the distinct page numbers of
the window (the singleton `[p]`) and the character count of the content; and
`p` lies within `[1, total_pages]` where `total_pages` is the page
count of the parsed document. -/
theorem c7_chunk_shape (pages : List (List TextItem)) (c : Chunk)
    (hc : c ∈ buildChunks (extractSpans pages)) :
    ∃ p g, 1 ≤ p ∧ p ≤ pages.length ∧ g ≠ [] ∧ g.length ≤ 15 ∧
      (∀ s ∈ g, s.page_number = p ∧ s ∈ extractSpans pages) ∧
      c.content = String.intercalate " " (g.map (·.text)) ∧
      c.span_ids = [] ∧
      c.metadata.page_numbers = [p] ∧
      c.metadata.char_count = c.content.length := by
  simp only [buildChunks, List.mem_flatMap, List.mem_map] at hc
  obtain ⟨p, hp, g, hg, hc⟩ := hc
  simp only [windows15] at hg
  obtain ⟨hne, hlen, hsub⟩ := windowsGo_mem hg
  have hpage : ∀ s ∈ g, s.page_number = p ∧ s ∈ extractSpans pages := by
    intro s hs
    have hsf := List.mem_filter.mp (hsub s hs)
    refine ⟨?_, hsf.1⟩
    simpa using hsf.2
  have hpmem : ∃ s ∈ extractSpans pages, s.page_number = p := by
    have h1 : p ∈ (extractSpans pages).map (·.page_number) :=
      mem_jsDedup (mem_sortAsc hp)
    simpa using h1
  obtain ⟨s0, hs0, hs0p⟩ := hpmem
  have hb := extractSpansFrom_bounds (k := 1) hs0
  subst hc
  refine ⟨p, g, by omega, by omega, hne, hlen, hpage, rfl, rfl, ?_, rfl⟩
  apply jsDedup_const
  · simpa using hne
  · intro x hx
    simp only [List.mem_map] at hx
    obtain ⟨s, hs, hx⟩ := hx
    rw [← hx]
    exact (hpage s hs).1

/-- Witness for C7: a one-page document with two text items yields the
single chunk "Brake pads" on page 1. -/
theorem c7_chunk_shape_witness :
    (⟨"Brake pads", [], ⟨[1], 10⟩⟩ : Chunk) ∈
      buildChunks (extractSpans [[⟨"Brake", none, none, none, none⟩,
        ⟨" pads ", none, none, none, none⟩]]) ∧
    ∃ p g, 1 ≤ p ∧
      p ≤ [[(⟨"Brake", none, none, none, none⟩ : TextItem),
            ⟨" pads ", none, none, none, none⟩]].length ∧
      g ≠ [] ∧ g.length ≤ 15 ∧
      (∀ s ∈ g, s.page_number = p ∧
        s ∈ extractSpans [[⟨"Brake", none, none, none, none⟩,
          ⟨" pads ", none, none, none, none⟩]]) ∧
      (⟨"Brake pads", [], ⟨[1], 10⟩⟩ : Chunk).content =
        String.intercalate " " (g.map (·.text)) ∧
      (⟨"Brake pads", [], ⟨[1], 10⟩⟩ : Chunk).span_ids = [] ∧
      (⟨"Brake pads", [], ⟨[1], 10⟩⟩ : Chunk).metadata.page_numbers = [p] ∧
      (⟨"Brake pads", [], ⟨[1], 10⟩⟩ : Chunk).metadata.char_count =
        (⟨"Brake pads", [], ⟨[1], 10⟩⟩ : Chunk).content.length :=
  ⟨by decide, c7_chunk_shape _ _ (by decide)⟩

/-- At most three sections survive `searchSections`. -/
theorem searchSections_le_three (store : List SectionJoin) (uid : String)
    (vi : VehicleInfo) (q : String) :
    (searchSections store uid vi q).length ≤ 3 := by
  simp only [searchSections]
  rw [List.length_take]
  exact min_le_left _ _

/-- Every section returned by `searchSections` belongs to the
requesting user and matched the vehicle and keyword filters. -/
theorem mem_searchSections {store : List SectionJoin} {uid : String}
    {vi : VehicleInfo} {q : String} {s : SectionJoin}
    (hs : s ∈ searchSections store uid vi q) :
    s.manual.user_id = uid ∧ vehicleFilter vi s.manual = true ∧
      sectionKeywordMatch q s = true := by
  simp only [searchSections] at hs
  have h1 := List.take_subset _ _ hs
  have h2 := List.mem_filter.mp h1
  have h3 := List.take_subset _ _ h2.1
  have h4 := (List.mem_filter.mp h3).2
  rcases Bool.and_eq_true_iff.mp h4 with ⟨hu, hv⟩
  exact ⟨eq_of_beq hu, hv, h2.2⟩

/-- Every chunk returned by `searchChunks` belongs to the requesting
user, satisfies the full-text matcher, and respects the explicit manual
scope. -/
theorem mem_searchChunks {fts : String → String → Bool}
    {store : List ChunkJoin} {uid : String} {mid : Option String}
    {vi : VehicleInfo} {q : String} {topK : Nat} {c : ChunkJoin}
    (hc : c ∈ searchChunks fts store uid mid vi q topK) :
    c.manual.user_id = uid ∧ fts q c.content = true ∧
      (∀ m, mid = some m → c.manual.id = m) ∧
      vehicleFilter vi c.manual = true := by
  simp only [searchChunks] at hc
  have h1 := List.take_subset _ _ hc
  have h2 := (List.mem_filter.mp h1).2
  simp only [Bool.and_eq_true] at h2
  obtain ⟨⟨⟨hu, hf⟩, hm⟩, hv⟩ := h2
  refine ⟨eq_of_beq hu, hf, ?_, hv⟩
  intro m hmid
  rw [hmid] at hm
  exact eq_of_beq hm

/-- The survivor characterization of the keyword filter. -/
theorem sectionKeywordMatch_iff (q : String) (s : SectionJoin) :
    sectionKeywordMatch q s = true ↔
      ∃ t, t ∈ q.toLower.split Char.isWhitespace ∧ t.length > 3 ∧
        strContainsCI s.section_name t = true := by
  simp only [sectionKeywordMatch, List.any_eq_true, significantTerms,
    List.mem_filter]
  constructor
  · rintro ⟨t, ⟨ht1, ht2⟩, ht3⟩
    exact ⟨t, ht1, by simpa using ht2, ht3⟩
  · rintro ⟨t, ht1, ht2, ht3⟩
    exact ⟨t, ⟨ht1, by simpa using ht2⟩, ht3⟩

/-- C8 (confirmed): the retrieval tiers run in the specified order:
the section tier is attempted exactly when the extracted vehicle
context is non-empty or an explicit manualId was supplied; a candidate
section survives the keyword filter iff its lowercased name contains at
least one whitespace-separated lowercased query term of length greater
than 3, with at most 3 sections kept; and the chunk full-text fallback
runs exactly when the section tier yielded zero results. -/
theorem c8_retrieval_tiers (sectionStore : List SectionJoin)
    (chunkStore : List ChunkJoin) (fts : String → String → Bool)
    (cap : Option VehicleInfo) (userId query : String)
    (reqManualId : Option String) (topK : Nat) (extractVehicle : Bool) :
    (searchRun sectionStore chunkStore fts cap userId query reqManualId topK
        extractVehicle).sectionTierRan =
      ((searchRun sectionStore chunkStore fts cap userId query reqManualId topK
        extractVehicle).vehicleInfo.nonEmpty || reqManualId.isSome) ∧
    (searchRun sectionStore chunkStore fts cap userId query reqManualId topK
        extractVehicle).chunkTierRan =
      (searchRun sectionStore chunkStore fts cap userId query reqManualId topK
        extractVehicle).sectionResults.isEmpty ∧
    (searchRun sectionStore chunkStore fts cap userId query reqManualId topK
        extractVehicle).chunkResults =
      (if (searchRun sectionStore chunkStore fts cap userId query reqManualId topK
          extractVehicle).sectionResults.isEmpty then
        searchChunks fts chunkStore userId reqManualId
          (searchRun sectionStore chunkStore fts cap userId query reqManualId topK
            extractVehicle).vehicleInfo query topK
       else []) ∧
    (searchRun sectionStore chunkStore fts cap userId query reqManualId topK
        extractVehicle).sectionResults.length ≤ 3 ∧
    (∀ cands : List SectionJoin, ∀ s : SectionJoin,
      s ∈ cands.filter (sectionKeywordMatch query) ↔
        s ∈ cands ∧ ∃ t, t ∈ query.toLower.split Char.isWhitespace ∧
          t.length > 3 ∧ strContainsCI s.section_name t = true) := by
  refine ⟨rfl, rfl, rfl, ?_, ?_⟩
  · have hgen : ∀ (b : Bool) (vi : VehicleInfo),
        (if b = true then searchSections sectionStore userId vi query
         else []).length ≤ 3 := by
      intro b vi
      cases b
      · simp
      · simpa using searchSections_le_three sectionStore userId vi query
    exact hgen _ _
  · intro cands s
    rw [List.mem_filter, sectionKeywordMatch_iff]

/-- Witness for C8: with empty stores, no capability and no explicit
manual, the section tier is skipped and the chunk fallback runs. -/
theorem c8_retrieval_tiers_witness :
    (searchRun [] [] (fun _ _ => false) none "user1" "brake noise" none 5
        true).chunkTierRan = true :=
  ((c8_retrieval_tiers [] [] (fun _ _ => false) none "user1" "brake noise"
    none 5 true).2.1).trans (by decide)

/-- C10 (confirmed, implicit behavior): when an explicit manualId
is supplied, vehicle-context extraction is never invoked — the resulting
vehicle info is the empty object — and the empty vehicle context
imposes no vehicle-metadata restriction on any manual, so vehicle
scoping applies only to requests without an explicit manual. -/
theorem c10_manual_scope_skips_extraction (sectionStore : List SectionJoin)
    (chunkStore : List ChunkJoin) (fts : String → String → Bool)
    (cap : Option VehicleInfo) (userId query m : String) (topK : Nat)
    (extractVehicle : Bool) :
    (searchRun sectionStore chunkStore fts cap userId query (some m) topK
        extractVehicle).extractionRan = false ∧
    (searchRun sectionStore chunkStore fts cap userId query (some m) topK
        extractVehicle).vehicleInfo = VehicleInfo.empty ∧
    ∀ mr : ManualRow, vehicleFilter VehicleInfo.empty mr = true := by
  refine ⟨?_, ?_, fun mr => rfl⟩
  · show (extractVehicle && (some m).isNone) = false
    simp
  · show (if (extractVehicle && (some m).isNone) = true then
        extractVehicleInfo cap else VehicleInfo.empty) = VehicleInfo.empty
    simp

/-- Figure citation entries only carry labels that are rendered in the
prompt for the same figure list. -/
theorem figCitationsFrom_id_mem {index : Nat} {h : Hit} :
    ∀ {j : Nat} {figs : List FigureRef} {c : CitationRec},
      c ∈ figCitationsFrom index h j figs → c.id ∈ figLabelsFrom index j figs := by
  intro j figs
  induction figs generalizing j with
  | nil => intro c hc; cases hc
  | cons f rest ih =>
      intro c hc
      simp only [figCitationsFrom] at hc
      rcases List.mem_append.mp hc with h1 | h1
      · cases hsu : f.signed_url with
        | some url =>
            rw [hsu] at h1
            simp only [List.mem_singleton] at h1
            subst h1
            exact List.mem_cons_self _ _
        | none =>
            rw [hsu] at h1
            cases h1
      · exact List.mem_cons_of_mem _ (ih h1)

/-- Citation entries only carry labels rendered in the prompt. -/
theorem buildCitationsFrom_id_mem :
    ∀ {i : Nat} {results : List Hit} {c : CitationRec},
      c ∈ buildCitationsFrom i results → c.id ∈ promptLabelsFrom i results := by
  intro i results
  induction results generalizing i with
  | nil => intro c hc; cases hc
  | cons h rest ih =>
      intro c hc
      simp only [buildCitationsFrom, hitCitations] at hc
      rcases List.mem_append.mp hc with h1 | h1
      · rcases List.mem_cons.mp h1 with h2 | h2
        · subst h2
          simp [promptLabelsFrom]
        · simp only [promptLabelsFrom, List.cons_append, List.mem_cons]
          right
          exact List.mem_append_left _ (figCitationsFrom_id_mem h2)
      · simp only [promptLabelsFrom, List.cons_append, List.mem_cons]
        right
        exact List.mem_append_right _ (ih h1)

/-- Every hit label has a citation entry. -/
theorem hitLabel_has_citation :
    ∀ {results : List Hit} {i k : Nat}, k < results.length →
      ∃ c ∈ buildCitationsFrom i results, c.id = hitLabel (i + k) := by
  intro results
  induction results with
  | nil => intro i k hk; cases hk
  | cons h rest ih =>
      intro i k hk
      match k with
      | 0 =>
          refine ⟨_, List.mem_append_left _ (List.mem_cons_self _ _), ?_⟩
          rw [Nat.add_zero]
      | k + 1 =>
          obtain ⟨c, hc, hid⟩ := ih (i := i + 1) (k := k) (by
            simp only [List.length_cons] at hk; omega)
          refine ⟨c, List.mem_append_right _ hc, ?_⟩
          rw [hid]
          congr 1
          omega

/-- Every figure with a signed URL yields a citation entry labelled
with its position. -/
theorem figLabel_has_citation {index : Nat} {h : Hit} :
    ∀ {figs : List FigureRef} {j m : Nat} {f : FigureRef},
      figs[m]? = some f → f.signed_url.isSome = true →
      ∃ c ∈ figCitationsFrom index h j figs, c.id = figLabel index (j + m) := by
  intro figs
  induction figs with
  | nil => intro j m f hm; cases hm
  | cons f0 rest ih =>
      intro j m f hm hs
      match m with
      | 0 =>
          simp only [List.getElem?_cons_zero, Option.some.injEq] at hm
          subst hm
          cases hsu : f0.signed_url with
          | some url =>
              refine ⟨{ id := figLabel index j, manualId := h.manualId,
                        manualTitle := h.manualTitle,
                        pageNumbers := [f0.page_number],
                        isFigure := true, figureUrl := some url }, ?_, ?_⟩
              · simp only [figCitationsFrom, hsu, List.singleton_append]
                exact List.mem_cons_self _ _
              · show figLabel index j = figLabel index (j + 0)
                rw [Nat.add_zero]
          | none => rw [hsu] at hs; cases hs
      | m + 1 =>
          simp only [List.getElem?_cons_succ] at hm
          obtain ⟨c, hc, hid⟩ := ih (j := j + 1) hm hs
          refine ⟨c, ?_, ?_⟩
          · simp only [figCitationsFrom]
            exact List.mem_append_right _ hc
          · rw [hid]
            congr 1
            omega

/-- The citation pushes of the hit at position `k` all land in the
full citation list. -/
theorem hitCitations_subset :
    ∀ {results : List Hit} {i k : Nat} {h : Hit}, results[k]? = some h →
      ∀ c ∈ hitCitations (i + k) h, c ∈ buildCitationsFrom i results := by
  intro results
  induction results with
  | nil => intro i k h hk; cases hk
  | cons h0 rest ih =>
      intro i k h hk c hc
      match k with
      | 0 =>
          simp only [List.getElem?_cons_zero, Option.some.injEq] at hk
          subst hk
          rw [Nat.add_zero] at hc
          exact List.mem_append_left _ hc
      | k + 1 =>
          simp only [List.getElem?_cons_succ] at hk
          have hc2 : c ∈ hitCitations ((i + 1) + k) h := by
            have : (i + 1) + k = i + (k + 1) := by omega
            rw [this]
            exact hc
          exact List.mem_append_right _ (ih hk c hc2)

/-- C5 counterexample: one hit with one figure whose asset has no
signed URL.  The prompt context renders both `c1` and the figure marker
`fig1_1`, but the citation map contains only `c1` — the figure label
rendered into the model-visible prompt has no corresponding entry,
because the figure citation is pushed only `if (f.signed_url)`. -/
theorem c5_counterexample :
    promptLabels [⟨false, "m1", "Tahoe Manual", "alternator", [3],
      [⟨some "Wiring diagram", 3, none⟩]⟩] = ["c1", "fig1_1"] ∧
    (buildCitations [⟨false, "m1", "Tahoe Manual", "alternator", [3],
      [⟨some "Wiring diagram", 3, none⟩]⟩]).map (·.id) = ["c1"] ∧
    ¬ ∀ lab ∈ promptLabels [⟨false, "m1", "Tahoe Manual", "alternator", [3],
        [⟨some "Wiring diagram", 3, none⟩]⟩],
        ∃ c ∈ buildCitations [⟨false, "m1", "Tahoe Manual", "alternator", [3],
          [⟨some "Wiring diagram", 3, none⟩]⟩], c.id = lab := by
  refine ⟨by decide, by decide, ?_⟩
  intro hall
  have h := hall "fig1_1" (by decide)
  revert h
  decide

/-- C5 (corrected): the prompt-visible and map labels agree in one
direction and conditionally in the other: every sequential hit label
`c{k+1}` has an entry with exactly that label as its id in the citation
map; a figure marker `fig{k+1}_{m+1}` has a corresponding entry exactly
when that figure carries a signed URL (figures without one are rendered
in the prompt but absent from the map); and conversely every id in the
map is a label rendered into the prompt. -/
theorem c5_label_agreement (results : List Hit) :
    (∀ c ∈ buildCitations results, c.id ∈ promptLabels results) ∧
    (∀ k, k < results.length →
      ∃ c ∈ buildCitations results, c.id = hitLabel k) ∧
    (∀ k h m f, results[k]? = some h → h.figures[m]? = some f →
      f.signed_url.isSome = true →
      ∃ c ∈ buildCitations results, c.id = figLabel k m) := by
  refine ⟨?_, ?_, ?_⟩
  · intro c hc
    exact buildCitationsFrom_id_mem hc
  · intro k hk
    obtain ⟨c, hc, hid⟩ := hitLabel_has_citation (i := 0) hk
    exact ⟨c, hc, by rw [hid, Nat.zero_add]⟩
  · intro k h m f hk hm hs
    obtain ⟨c, hc, hid⟩ := @figLabel_has_citation k h _ 0 _ _ hm hs
    refine ⟨c, ?_, by rw [hid, Nat.zero_add]⟩
    have hmem : c ∈ hitCitations (0 + k) h := by
      rw [Nat.zero_add]
      exact List.mem_cons_of_mem _ hc
    exact hitCitations_subset hk c hmem

/-- Witness for C5: one hit with one signed figure; both `c1` and
`fig1_1` resolve in the map. -/
theorem c5_label_agreement_witness :
    (∃ c ∈ buildCitations [⟨false, "m1", "Tahoe Manual", "alternator", [3],
      [⟨some "Wiring diagram", 3, some "https://assets/f.png"⟩]⟩],
      c.id = hitLabel 0) ∧
    ∃ c ∈ buildCitations [⟨false, "m1", "Tahoe Manual", "alternator", [3],
      [⟨some "Wiring diagram", 3, some "https://assets/f.png"⟩]⟩],
      c.id = figLabel 0 0 :=
  ⟨(c5_label_agreement [⟨false, "m1", "Tahoe Manual", "alternator", [3],
      [⟨some "Wiring diagram", 3, some "https://assets/f.png"⟩]⟩]).2.1 0
      (by decide),
   (c5_label_agreement [⟨false, "m1", "Tahoe Manual", "alternator", [3],
      [⟨some "Wiring diagram", 3, some "https://assets/f.png"⟩]⟩]).2.2 0
      ⟨false, "m1", "Tahoe Manual", "alternator", [3],
        [⟨some "Wiring diagram", 3, some "https://assets/f.png"⟩]⟩ 0
      ⟨some "Wiring diagram", 3, some "https://assets/f.png"⟩
      (by decide) (by decide) (by decide)⟩

/-- C1 counterexample: a response whose retrieval produced zero
citations.  The emitted stream is just the forwarded upstream frames
plus the sentinel — no citation-metadata event is emitted at all, so
the claimed invariant (which must hold "including responses whose
retrieval produced zero citations") fails. -/
theorem c1_counterexample :
    buildOutputStream [] [] = [Frame.sentinel] ∧
    ¬ citationsImmediatelyBeforeSentinel (buildOutputStream [] []) := by
  constructor
  · rfl
  · rintro ⟨pre, ids, hpre⟩
    have hlen := congrArg List.length hpre
    simp [buildOutputStream] at hlen

/-- C1 (corrected): when retrieval produced at least one citation,
the function appends — after the forwarded upstream frames — the
reference-text content delta, then the citation-metadata event, then
the sentinel, so the citation-metadata event is the last frame before
the final sentinel; when retrieval produced zero citations, no
citation-metadata event is emitted and the stream is the forwarded
upstream frames followed by the sentinel.  (Upstream frames are
forwarded unmodified, so any completion marker the upstream stream
itself ends with precedes these appended frames.) -/
theorem c1_stream_order (upstream : List Frame)
    (citations : List CitationRec) :
    (citations.length > 0 →
      buildOutputStream upstream citations =
        (upstream ++ [Frame.delta (referenceText citations)]) ++
          [Frame.citationsPayload (citations.map (·.id)), Frame.sentinel] ∧
      citationsImmediatelyBeforeSentinel
        (buildOutputStream upstream citations)) ∧
    (citations.length = 0 →
      buildOutputStream upstream citations = upstream ++ [Frame.sentinel] ∧
      ∀ f ∈ buildOutputStream upstream citations,
        f ∈ upstream ∨ f = Frame.sentinel) := by
  constructor
  · intro hpos
    have hshape : buildOutputStream upstream citations =
        (upstream ++ [Frame.delta (referenceText citations)]) ++
          [Frame.citationsPayload (citations.map (·.id)), Frame.sentinel] := by
      simp only [buildOutputStream, if_pos hpos]
      simp
    exact ⟨hshape, _, _, hshape⟩
  · intro hzero
    have hshape : buildOutputStream upstream citations =
        upstream ++ [Frame.sentinel] := by
      simp [buildOutputStream, hzero]
    refine ⟨hshape, ?_⟩
    rw [hshape]
    intro f hf
    rcases List.mem_append.mp hf with h | h
    · exact Or.inl h
    · simp only [List.mem_singleton] at h
      exact Or.inr h

/-- Witness for C1: one forwarded token and one citation. -/
theorem c1_stream_order_witness :
    buildOutputStream [Frame.delta "Hi"]
        [⟨"c1", "m1", "Tahoe Manual", [2], false, none⟩] =
      ([Frame.delta "Hi"] ++
        [Frame.delta (referenceText
          [⟨"c1", "m1", "Tahoe Manual", [2], false, none⟩])]) ++
        [Frame.citationsPayload ["c1"], Frame.sentinel] ∧
    citationsImmediatelyBeforeSentinel (buildOutputStream [Frame.delta "Hi"]
      [⟨"c1", "m1", "Tahoe Manual", [2], false, none⟩]) := by
  have h := (c1_stream_order [Frame.delta "Hi"]
    [⟨"c1", "m1", "Tahoe Manual", [2], false, none⟩]).1 (by decide)
  exact ⟨h.1, h.2⟩

/-- C3 counterexample: the SELECT policies do not restrict reads to
the owner.  A user who is not the owner of a manual is allowed by the
store to read its section rows (`USING (true)`) and — being
authenticated — its span/chunk/figure/table rows (`TO authenticated
USING (true)`), refuting owner-restricted reads. -/
theorem c3_counterexample :
    ¬ ∀ (owner : String → Option String) (ctx : AuthCtx) (mid : String),
        (sectionsSelectAllowed owner ctx mid = true → owner mid = ctx.uid) ∧
        (derivedSelectAllowed owner ctx mid = true → owner mid = ctx.uid) := by
  intro h
  have hbad := (h (fun _ => some "alice") ⟨some "bob"⟩ "m1").2 rfl
  exact absurd hbad (by decide)

/-- C3 (corrected): the store does not enforce owner isolation on
reads of derived rows: the sections SELECT policy admits every request
and the spans/chunks/figures/tables SELECT policy admits every
authenticated request, regardless of ownership.  Owner scoping holds
only for writes — inserts and deletes of derived rows require the
requesting user to own the parent manual — and, at query time, for
reads made through the search function, which filters sections and
chunks by the id of the requesting user itself. -/
theorem c3_read_policies_open (owner : String → Option String)
    (ctx : AuthCtx) (mid : String) :
    sectionsSelectAllowed owner ctx mid = true ∧
    (ctx.uid.isSome = true → derivedSelectAllowed owner ctx mid = true) ∧
    (derivedInsertAllowed owner ctx mid = true ↔
      ∃ u, ctx.uid = some u ∧ owner mid = some u) ∧
    (derivedDeleteAllowed owner ctx mid = true ↔
      ∃ u, ctx.uid = some u ∧ owner mid = some u) ∧
    (∀ (store : List SectionJoin) (vi : VehicleInfo) (q uid : String),
      ∀ s ∈ searchSections store uid vi q, s.manual.user_id = uid) ∧
    (∀ (fts : String → String → Bool) (store : List ChunkJoin)
        (uid : String) (rm : Option String) (vi : VehicleInfo)
        (q : String) (topK : Nat),
      ∀ c ∈ searchChunks fts store uid rm vi q topK,
        c.manual.user_id = uid) := by
  have hown : derivedInsertAllowed owner ctx mid = true ↔
      ∃ u, ctx.uid = some u ∧ owner mid = some u := by
    simp only [derivedInsertAllowed, ownsManual]
    cases ctx.uid with
    | none => simp
    | some u => simp [beq_iff_eq]
  refine ⟨rfl, ?_, hown, hown, ?_, ?_⟩
  · intro hu
    simpa [derivedSelectAllowed] using hu
  · intro store vi q uid s hs
    exact (mem_searchSections hs).1
  · intro fts store uid rm vi q topK c hc
    exact (mem_searchChunks hc).1

/-- Witness for C3: the owner themselves may insert, and an
authenticated non-owner may still read. -/
theorem c3_read_policies_open_witness :
    sectionsSelectAllowed (fun _ => some "alice") ⟨some "bob"⟩ "m1" = true ∧
    derivedSelectAllowed (fun _ => some "alice") ⟨some "bob"⟩ "m1" = true ∧
    derivedInsertAllowed (fun _ => some "alice") ⟨some "alice"⟩ "m1" = true :=
  ⟨(c3_read_policies_open (fun _ => some "alice") ⟨some "bob"⟩ "m1").1,
   (c3_read_policies_open (fun _ => some "alice") ⟨some "bob"⟩ "m1").2.1 rfl,
   ((c3_read_policies_open (fun _ => some "alice") ⟨some "alice"⟩ "m1").2.2.1).mpr
     ⟨"alice", rfl, rfl⟩⟩

end FleetWiseAide
